import Mathlib

/-!
Shallow embedding of `src/sbi/utils/sensitivity_analysis.py`: the
early-stopping training loop `fit_regression_net` and the
train/validation splitter `data_loader`.

Python machine floats are modelled as exact rationals plus a NaN value
(`PVal`); Python ints as `ℤ`/`ℕ`; fallible operations (Python float
division by zero raises `ZeroDivisionError`, `load_state_dict(None)`
raises) return `Except PyErr`.  The stochastic pieces — the realization
of `torch.randperm`, the per-epoch order emitted by
`SubsetRandomSampler`, the per-batch loss values produced by the network
and optimizer — are passed in explicitly as parameters, so every run of
the Python code corresponds to one choice of those parameters.
-/

unseal Rat.add Rat.sub Rat.mul Rat.inv

namespace SensitivityAnalysis

/-- A Python float as used by the loop: an exact finite value or NaN.
The loop only sums and compares losses, so exact rationals model the
arithmetic; NaN models a non-finite loss value. -/
inductive PVal where
  | fin (q : ℚ)
  | nan
deriving DecidableEq

/-- IEEE-754 `<` as exposed by Python: any comparison involving NaN is
false. -/
def PVal.plt : PVal → PVal → Bool
  | .fin a, .fin b => decide (a < b)
  | _, _ => false

/-- Python float addition: NaN is absorbing. -/
def PVal.add : PVal → PVal → PVal
  | .fin a, .fin b => .fin (a + b)
  | _, _ => .nan

/-- Exceptions the program can raise: Python float division by zero,
`load_state_dict(None)`, and torch's `ValueError` from `DataLoader`
construction with a non-positive batch size. -/
inductive PyErr where
  | zero_division_error
  | load_state_dict_none
  | value_error
deriving DecidableEq

/-- Python `v / d` for a float `v` and an int `d`: raises
`ZeroDivisionError` when `d = 0` (it does not produce inf/NaN). -/
def PVal.div_int (v : PVal) (d : ℤ) : Except PyErr PVal :=
  if d = 0 then .error .zero_division_error
  else
    match v with
    | .fin q => .ok (.fin (q / (d : ℚ)))
    | .nan => .ok .nan

/-- Total variant of `PVal.div_int`, used to state properties; it agrees
with `PVal.div_int` whenever `d ≠ 0`. -/
def PVal.div_int_total (v : PVal) (d : ℤ) : PVal :=
  match v with
  | .fin q => .fin (q / (d : ℚ))
  | .nan => .nan

/-- Python `int(q)`: truncation toward zero — the floor for nonnegative
`q`, the ceiling for negative `q` (stated computably via `Rat.floor` and
`Rat.ceil`; see `py_int_eq_floor`). -/
def py_int (q : ℚ) : ℤ := if 0 ≤ q then q.floor else q.ceil

/-- The cut point of a Python slice `l[:k]` / `l[k:]` on a list of length
`n`: a negative `k` counts from the end, and the cut is clamped to
`[0, n]` (`List.take` / `List.drop` clamp the upper end themselves). -/
def slice_stop (n : ℕ) (k : ℤ) : ℕ := if k < 0 then (n + k).toNat else k.toNat

/-- A torch `DataLoader` over a `SubsetRandomSampler`, as far as the
claims are concerned: the subset of dataset indices handed to the
sampler, and the configured batch size (torch requires it to be
positive). -/
structure Loader where
  indices : List ℕ
  batch_size : ℤ
deriving DecidableEq

/-- Helper for `full_batches`, structurally recursive on a fuel bounding
the list length (so that the kernel can evaluate it): as long as at
least `b` elements remain, emit the next `b` as a batch. -/
def full_batches_go (b : ℕ) : ℕ → List ℕ → List (List ℕ)
  | 0, _ => []
  | fuel + 1, l =>
    if b = 0 ∨ l.length < b then []
    else l.take b :: full_batches_go b fuel (l.drop b)

/-- The consecutive full minibatches of size `b` of a sampling order
`l`; `drop_last=True` discards the final incomplete batch. -/
def full_batches (b : ℕ) (l : List ℕ) : List (List ℕ) :=
  full_batches_go b l.length l

/-- The batches one epoch of iteration over `L` yields, given the order
`epoch_order` in which the sampler emits `L.indices` during that epoch.
For `SubsetRandomSampler` (used for both the training and the validation
loader) `epoch_order` is a fresh uniformly random permutation of
`L.indices` every epoch. -/
def Loader.batches (L : Loader) (epoch_order : List ℕ) : List (List ℕ) :=
  full_batches L.batch_size.toNat epoch_order

/-- `len(theta[:num_train])`: the number of examples actually used. -/
def num_examples_of (theta : List ℚ) (num_train : ℕ) : ℕ :=
  (theta.take num_train).length

/-- `int((1 - validation_fraction) * num_examples)`. -/
def num_training_examples_of (validation_fraction : ℚ) (num_examples : ℕ) : ℤ :=
  py_int ((1 - validation_fraction) * num_examples)

/-- `data_loader`, with the realization `permuted_indices` of
`torch.randperm(num_examples)` passed in explicitly.  Returns the
training loader, the validation loader, and `num_validation_examples`.
(`stats` only feeds the shared `TensorDataset`, which the index
bookkeeping never consults.) -/
def data_loader (theta stats : List ℚ) (num_train : ℕ) (batch_size : ℤ)
    (validation_fraction : ℚ) (permuted_indices : List ℕ) :
    Loader × Loader × ℤ :=
  let num_examples := num_examples_of theta num_train
  let num_training_examples :=
    num_training_examples_of validation_fraction num_examples
  let num_validation_examples : ℤ := num_examples - num_training_examples
  let cut := slice_stop num_examples num_training_examples
  let train_indices := permuted_indices.take cut
  let val_indices := permuted_indices.drop cut
  ({ indices := train_indices, batch_size := batch_size },
   { indices := val_indices,
     batch_size := min batch_size ((num_examples : ℤ) - num_training_examples) },
   num_validation_examples)

/-- `data_loader` as called at runtime: `torch.randperm` is a function of
the global generator seed and the length, so the split is a function of
the seed. -/
def data_loader_seeded (randperm : ℕ → ℕ → List ℕ) (seed : ℕ)
    (theta stats : List ℚ) (num_train : ℕ) (batch_size : ℤ)
    (validation_fraction : ℚ) : Loader × Loader × ℤ :=
  data_loader theta stats num_train batch_size validation_fraction
    (randperm seed (num_examples_of theta num_train))

/-- The mutable loop state of `fit_regression_net`.  `σ` is the type of
a network parameter state (a `state_dict`); `net_state` is the current
parameters of `neural_net`.  The returned `best_net` aliases
`neural_net`, so the returned network holds `net_state` at exit. -/
structure LoopState (σ : Type) where
  epochs : ℕ
  best_validation_log_prob : PVal
  epochs_since_last_improvement : ℕ
  best_model_state_dict : Option σ
  net_state : σ
deriving DecidableEq

/-- The training-pass normalization: the per-batch mean losses are summed
into a running float accumulator and divided by
`num_train - num_validation_examples`, where `num_train` is the argument
of `fit_regression_net` (not the true number of examples seen). -/
def train_pass_loss (batch_losses : List PVal) (num_train : ℕ)
    (num_validation_examples : ℤ) : Except PyErr PVal :=
  PVal.div_int (batch_losses.foldl PVal.add (.fin 0))
    ((num_train : ℤ) - num_validation_examples)

/-- The validation-pass normalization: sum of per-batch mean losses
divided by `num_validation_examples`. -/
def val_pass_loss (batch_losses : List PVal)
    (num_validation_examples : ℤ) : Except PyErr PVal :=
  PVal.div_int (batch_losses.foldl PVal.add (.fin 0)) num_validation_examples

/-- The validation loss value of epoch `k` (meaningful whenever
`num_validation_examples ≠ 0`, in which case the validation pass returns
exactly this value). -/
def v_loss (val_losses : ℕ → List PVal) (num_validation_examples : ℤ)
    (k : ℕ) : PVal :=
  PVal.div_int_total ((val_losses k).foldl PVal.add (.fin 0))
    num_validation_examples

variable {σ : Type}

/-- The improvement check of one epoch (source lines 109–115), producing
the updated bookkeeping state; the network now holds the parameters
`net_after (s.epochs + 1)` left by this epoch's optimizer steps, and an
improvement deep-copies them into `best_model_state_dict`. -/
def improve_update (validation_loss : PVal) (net_after : ℕ → σ)
    (s : LoopState σ) : LoopState σ :=
  if PVal.plt validation_loss s.best_validation_log_prob then
    { epochs := s.epochs + 1,
      best_validation_log_prob := validation_loss,
      epochs_since_last_improvement := 0,
      best_model_state_dict := some (net_after (s.epochs + 1)),
      net_state := net_after (s.epochs + 1) }
  else
    { epochs := s.epochs + 1,
      best_validation_log_prob := s.best_validation_log_prob,
      epochs_since_last_improvement := s.epochs_since_last_improvement + 1,
      best_model_state_dict := s.best_model_state_dict,
      net_state := net_after (s.epochs + 1) }

/-- One iteration of the `while not converged` loop: training pass,
epoch increment, validation pass, improvement check, then the two
termination checks (epoch budget `epochs > max_epochs`, and patience
`epochs_since_last_improvement > stop_after_epochs - 1`).  In the source
the two checks are sequential if-blocks whose bodies are identical
(`load_state_dict(best_model_state_dict); converged = True`), so their
disjunction is behaviorally the same, including the error raised when
`best_model_state_dict` is still `None`.  Returns the new state and
whether `converged` was set. -/
def epoch_step (train_losses val_losses : ℕ → List PVal) (net_after : ℕ → σ)
    (num_train : ℕ) (num_validation_examples max_epochs stop_after_epochs : ℤ)
    (s : LoopState σ) : Except PyErr (LoopState σ × Bool) :=
  match train_pass_loss (train_losses (s.epochs + 1)) num_train
      num_validation_examples with
  | .error err => .error err
  | .ok _ =>
    match val_pass_loss (val_losses (s.epochs + 1)) num_validation_examples with
    | .error err => .error err
    | .ok validation_loss =>
      if ((s.epochs + 1 : ℕ) : ℤ) > max_epochs ∨
          ((improve_update validation_loss net_after
              s).epochs_since_last_improvement : ℤ)
            > stop_after_epochs - 1 then
        match (improve_update validation_loss net_after
            s).best_model_state_dict with
        | none => .error .load_state_dict_none
        | some d =>
          .ok ({ improve_update validation_loss net_after s with
            net_state := d }, true)
      else .ok (improve_update validation_loss net_after s, false)

/-- The `while not converged` loop, with fuel; `none` means the fuel ran
out (the termination theorem shows fuel `max_epochs.toNat + 1` never
runs out). -/
def run_loop (train_losses val_losses : ℕ → List PVal) (net_after : ℕ → σ)
    (num_train : ℕ) (num_validation_examples max_epochs stop_after_epochs : ℤ) :
    ℕ → LoopState σ → Option (Except PyErr (LoopState σ))
  | 0, _ => none
  | fuel + 1, s =>
    match epoch_step train_losses val_losses net_after num_train
        num_validation_examples max_epochs stop_after_epochs s with
    | .error err => some (.error err)
    | .ok (s1, true) => some (.ok s1)
    | .ok (s1, false) =>
      run_loop train_losses val_losses net_after num_train
        num_validation_examples max_epochs stop_after_epochs fuel s1

/-- The initial loop state: sentinel best `1e10`, no snapshot yet, the
network still holding its initial parameters. -/
def init_state (net0 : σ) : LoopState σ :=
  { epochs := 0, best_validation_log_prob := .fin (10 ^ 10),
    epochs_since_last_improvement := 0, best_model_state_dict := none,
    net_state := net0 }

/-- `fit_regression_net`: runs the loop from the initial state and
returns the parameters held by the returned network (`best_net` aliases
`neural_net`).  The loaders' and optimizer's per-epoch randomness is
abstracted into the per-epoch batch-loss sequences and the parameter
state `net_after k` the training pass of epoch `k` leaves the network
in.  See `fit_regression_net_full` for the entry point that also runs
the `data_loader` call of source line 56 (with torch's construction-time
validation) and feeds its `num_validation_examples` to this loop. -/
def fit_regression_net (train_losses val_losses : ℕ → List PVal)
    (net_after : ℕ → σ) (net0 : σ) (num_train : ℕ)
    (num_validation_examples max_epochs stop_after_epochs : ℤ) :
    Option (Except PyErr σ) :=
  (run_loop train_losses val_losses net_after num_train
      num_validation_examples max_epochs stop_after_epochs
      (max_epochs.toNat + 1) (init_state net0)).map
    (fun r => r.map LoopState.net_state)

/-- Torch's construction-time validation, modelled from torch's
documented `BatchSampler` behavior (unchanged since before this fork's
torch versions): constructing a `DataLoader(...)` raises
`ValueError("batch_size should be a positive integer value")` when the
configured batch size is not positive; otherwise the loader is built as
configured. -/
def torch_data_loader_check (L : Loader) : Except PyErr Loader :=
  if L.batch_size ≤ 0 then .error .value_error else .ok L

/-- The `data_loader` call including torch's construction-time checks,
in source order: the training `DataLoader` (lines 186–191, batch size
`batch_size`) is constructed first, then the validation `DataLoader`
(lines 192–198, batch size `min(batch_size, num_validation_examples)`)
— not positive when the validation set is empty, so construction raises
`ValueError` inside `data_loader`, before any training happens. -/
def data_loader_checked (theta stats : List ℚ) (num_train : ℕ)
    (batch_size : ℤ) (validation_fraction : ℚ) (permuted_indices : List ℕ) :
    Except PyErr (Loader × Loader × ℤ) :=
  match torch_data_loader_check (data_loader theta stats num_train batch_size
      validation_fraction permuted_indices).1 with
  | .error err => .error err
  | .ok _ =>
    match torch_data_loader_check (data_loader theta stats num_train
        batch_size validation_fraction permuted_indices).2.1 with
    | .error err => .error err
    | .ok _ =>
      .ok (data_loader theta stats num_train batch_size validation_fraction
        permuted_indices)

/-- `fit_regression_net` from its entry point: the `data_loader` call at
source line 56 runs first, and its construction-time errors surface
before the loop ever starts; on success the loop uses the
`num_validation_examples` returned by the splitter. -/
def fit_regression_net_full (theta stats : List ℚ) (num_train : ℕ)
    (batch_size : ℤ) (validation_fraction : ℚ) (permuted_indices : List ℕ)
    (train_losses val_losses : ℕ → List PVal) (net_after : ℕ → σ)
    (net0 : σ) (max_epochs stop_after_epochs : ℤ) :
    Option (Except PyErr σ) :=
  match data_loader_checked theta stats num_train batch_size
      validation_fraction permuted_indices with
  | .error err => some (.error err)
  | .ok (_, _, num_validation_examples) =>
    fit_regression_net train_losses val_losses net_after net0 num_train
      num_validation_examples max_epochs stop_after_epochs

/-! ### Helper lemmas -/

theorem py_int_eq_floor (q : ℚ) (h : 0 ≤ q) : py_int q = ⌊q⌋ := by
  rw [py_int, if_pos h, Rat.floor_def' q, ← Rat.floor_def]

theorem PVal.div_int_ok (v : PVal) {d : ℤ} (hd : d ≠ 0) :
    PVal.div_int v d = .ok (PVal.div_int_total v d) := by
  unfold PVal.div_int PVal.div_int_total
  rw [if_neg hd]
  cases v <;> rfl

theorem train_pass_loss_ok (ls : List PVal) (num_train : ℕ) {nv : ℤ}
    (h : (num_train : ℤ) - nv ≠ 0) :
    train_pass_loss ls num_train nv
      = .ok (PVal.div_int_total (ls.foldl PVal.add (.fin 0))
          ((num_train : ℤ) - nv)) :=
  PVal.div_int_ok _ h

theorem val_pass_loss_ok (vl : ℕ → List PVal) {nv : ℤ} (h : nv ≠ 0) (k : ℕ) :
    val_pass_loss (vl k) nv = .ok (v_loss vl nv k) :=
  PVal.div_int_ok _ h

theorem PVal.plt_trans {a b c : PVal} (h1 : PVal.plt a b = true)
    (h2 : PVal.plt b c = true) : PVal.plt a c = true := by
  cases a <;> cases b <;> cases c <;> simp_all [PVal.plt]
  exact lt_trans h1 h2

theorem PVal.plt_irrefl (a : PVal) : PVal.plt a a = false := by
  cases a <;> simp [PVal.plt]

theorem full_batches_go_length {b : ℕ} (hb : b ≠ 0) (fuel : ℕ) :
    ∀ l : List ℕ, l.length ≤ fuel →
      (full_batches_go b fuel l).length = l.length / b := by
  induction fuel with
  | zero =>
    intro l h
    have h0 : l.length = 0 := by omega
    simp [full_batches_go, h0]
  | succ fuel ih =>
    intro l h
    rw [full_batches_go]
    split
    · next hc =>
      have hlt : l.length < b := by omega
      simp [Nat.div_eq_of_lt hlt]
    · next hc =>
      have hble : b ≤ l.length := by omega
      rw [List.length_cons,
        ih (l.drop b) (by simp only [List.length_drop]; omega),
        List.length_drop]
      exact (Nat.div_eq_sub_div (by omega) hble).symm

theorem full_batches_go_batch_length {b : ℕ} (fuel : ℕ) :
    ∀ l : List ℕ, ∀ c ∈ full_batches_go b fuel l, c.length = b := by
  induction fuel with
  | zero =>
    intro l c hc
    simp [full_batches_go] at hc
  | succ fuel ih =>
    intro l c hc
    rw [full_batches_go] at hc
    split at hc
    · simp at hc
    · next hc' =>
      rcases List.mem_cons.mp hc with rfl | h
      · simp only [List.length_take]
        omega
      · exact ih (l.drop b) c h

theorem full_batches_go_subset (b fuel : ℕ) :
    ∀ l : List ℕ, ∀ c ∈ full_batches_go b fuel l, ∀ x ∈ c, x ∈ l := by
  induction fuel with
  | zero =>
    intro l c hc
    simp [full_batches_go] at hc
  | succ fuel ih =>
    intro l c hc x hx
    rw [full_batches_go] at hc
    split at hc
    · simp at hc
    · rcases List.mem_cons.mp hc with rfl | h
      · exact List.take_subset _ _ hx
      · exact List.drop_subset _ _ (ih (l.drop b) c h x hx)

theorem full_batches_length {b : ℕ} (hb : b ≠ 0) (l : List ℕ) :
    (full_batches b l).length = l.length / b :=
  full_batches_go_length hb l.length l le_rfl

theorem full_batches_batch_length {b : ℕ} (l : List ℕ) :
    ∀ c ∈ full_batches b l, c.length = b :=
  full_batches_go_batch_length l.length l

theorem full_batches_subset (b : ℕ) (l : List ℕ) :
    ∀ c ∈ full_batches b l, ∀ x ∈ c, x ∈ l :=
  full_batches_go_subset b l.length l

theorem data_loader_train_indices (theta stats : List ℚ) (num_train : ℕ)
    (batch_size : ℤ) (vf : ℚ) (p : List ℕ) :
    (data_loader theta stats num_train batch_size vf p).1.indices
      = p.take (slice_stop (num_examples_of theta num_train)
          (num_training_examples_of vf (num_examples_of theta num_train))) := rfl

theorem data_loader_val_indices (theta stats : List ℚ) (num_train : ℕ)
    (batch_size : ℤ) (vf : ℚ) (p : List ℕ) :
    (data_loader theta stats num_train batch_size vf p).2.1.indices
      = p.drop (slice_stop (num_examples_of theta num_train)
          (num_training_examples_of vf (num_examples_of theta num_train))) := rfl

theorem data_loader_val_batch_size (theta stats : List ℚ) (num_train : ℕ)
    (batch_size : ℤ) (vf : ℚ) (p : List ℕ) :
    (data_loader theta stats num_train batch_size vf p).2.1.batch_size
      = min batch_size ((num_examples_of theta num_train : ℤ)
          - num_training_examples_of vf (num_examples_of theta num_train)) := rfl

theorem data_loader_train_batch_size (theta stats : List ℚ) (num_train : ℕ)
    (batch_size : ℤ) (vf : ℚ) (p : List ℕ) :
    (data_loader theta stats num_train batch_size vf p).1.batch_size
      = batch_size := rfl

theorem data_loader_num_val (theta stats : List ℚ) (num_train : ℕ)
    (batch_size : ℤ) (vf : ℚ) (p : List ℕ) :
    (data_loader theta stats num_train batch_size vf p).2.2
      = (num_examples_of theta num_train : ℤ)
          - num_training_examples_of vf (num_examples_of theta num_train) :=
  rfl

/-- The 100-sample dataset of the C4 scenario. -/
def theta100 : List ℚ := (List.range 100).map fun i => (i : ℚ)

/-! ### Claim theorems for the data splitter -/

/-- C3: for every call to `data_loader`, the training-index list and the
validation-index list are disjoint (so each index is used in at most one
of them), their concatenation is exactly the drawn permutation, and
together they cover all indices `[0, num_examples)` of the truncated
dataset. -/
theorem data_loader_split_partition (theta stats : List ℚ) (num_train : ℕ)
    (batch_size : ℤ) (validation_fraction : ℚ) (p : List ℕ)
    (hp : p.Perm (List.range (num_examples_of theta num_train))) :
    (data_loader theta stats num_train batch_size validation_fraction
        p).1.indices.Disjoint
      (data_loader theta stats num_train batch_size validation_fraction
        p).2.1.indices ∧
    (data_loader theta stats num_train batch_size validation_fraction
        p).1.indices ++
      (data_loader theta stats num_train batch_size validation_fraction
        p).2.1.indices = p ∧
    ((data_loader theta stats num_train batch_size validation_fraction
        p).1.indices ++
      (data_loader theta stats num_train batch_size validation_fraction
        p).2.1.indices).Perm
      (List.range (num_examples_of theta num_train)) := by
  have hnodup : p.Nodup := hp.nodup_iff.mpr (List.nodup_range _)
  rw [data_loader_train_indices, data_loader_val_indices]
  exact ⟨List.disjoint_take_drop hnodup le_rfl,
    List.take_append_drop _ _, (List.take_append_drop _ _).symm ▸ hp⟩

/-- Witness for C3 at a concrete call. -/
theorem data_loader_split_partition_witness :
    ([2, 0, 1] : List ℕ).Perm (List.range (num_examples_of [5, 6, 7] 3)) ∧
    ((data_loader [5, 6, 7] [0, 0, 1] 3 2 (1 / 10) [2, 0, 1]).1.indices.Disjoint
        (data_loader [5, 6, 7] [0, 0, 1] 3 2 (1 / 10) [2, 0, 1]).2.1.indices ∧
      (data_loader [5, 6, 7] [0, 0, 1] 3 2 (1 / 10) [2, 0, 1]).1.indices ++
        (data_loader [5, 6, 7] [0, 0, 1] 3 2 (1 / 10) [2, 0, 1]).2.1.indices
          = [2, 0, 1] ∧
      ((data_loader [5, 6, 7] [0, 0, 1] 3 2 (1 / 10) [2, 0, 1]).1.indices ++
        (data_loader [5, 6, 7] [0, 0, 1] 3 2 (1 / 10) [2, 0, 1]).2.1.indices).Perm
        (List.range (num_examples_of [5, 6, 7] 3))) :=
  ⟨by decide,
   data_loader_split_partition [5, 6, 7] [0, 0, 1] 3 2 (1 / 10) [2, 0, 1]
     (by decide)⟩

/-- C8: determinism of the split as a two-run property — with the random
seed of the permutation step fixed, two calls of `data_loader` on
identical inputs produce identical train/validation splits (`randperm`
is a function of the seed and the length). -/
theorem data_loader_seeded_deterministic (randperm : ℕ → ℕ → List ℕ)
    (seed1 seed2 : ℕ) (theta stats : List ℚ) (num_train : ℕ)
    (batch_size : ℤ) (validation_fraction : ℚ) (h : seed1 = seed2) :
    data_loader_seeded randperm seed1 theta stats num_train batch_size
        validation_fraction
      = data_loader_seeded randperm seed2 theta stats num_train batch_size
        validation_fraction := by
  rw [h]

/-- Witness for C8 at a concrete seed and input. -/
theorem data_loader_seeded_deterministic_witness :
    (0 : ℕ) = 0 ∧
    data_loader_seeded (fun _ n => List.range n) 0 [1, 2, 3] [0, 0, 1] 3 2
        (1 / 10)
      = data_loader_seeded (fun _ n => List.range n) 0 [1, 2, 3] [0, 0, 1] 3 2
        (1 / 10) :=
  ⟨rfl, data_loader_seeded_deterministic (fun _ n => List.range n) 0 0
    [1, 2, 3] [0, 0, 1] 3 2 (1 / 10) rfl⟩

/-- C9 (amended): the validation loader built by `data_loader` is
configured with batch size `min(batch_size, num_validation_examples)`
and, for ANY order in which its `SubsetRandomSampler` emits the
validation indices during an epoch, it yields only full minibatches of
exactly that size drawn from the validation indices, dropping any final
partial batch (`batch count = num_validation_examples / batch size`).
The order is a fresh random permutation each epoch, not a fixed one —
see the counterexample. -/
theorem val_loader_batches_spec (theta stats : List ℚ) (num_train : ℕ)
    (batch_size : ℤ) (vf : ℚ) (p order : List ℕ)
    (hp : p.Perm (List.range (num_examples_of theta num_train)))
    (hbs : 0 < batch_size)
    (hk : 0 ≤ num_training_examples_of vf (num_examples_of theta num_train))
    (hv : num_training_examples_of vf (num_examples_of theta num_train)
        < (num_examples_of theta num_train : ℤ))
    (ho : order.Perm
        (data_loader theta stats num_train batch_size vf p).2.1.indices) :
    (data_loader theta stats num_train batch_size vf p).2.1.batch_size
        = min batch_size ((num_examples_of theta num_train : ℤ)
            - num_training_examples_of vf (num_examples_of theta num_train)) ∧
    (∀ c ∈ (data_loader theta stats num_train batch_size vf p).2.1.batches
        order,
      c.length = (min batch_size ((num_examples_of theta num_train : ℤ)
          - num_training_examples_of vf
              (num_examples_of theta num_train))).toNat ∧
      ∀ x ∈ c,
        x ∈ (data_loader theta stats num_train batch_size vf p).2.1.indices) ∧
    ((data_loader theta stats num_train batch_size vf p).2.1.batches
        order).length
      = (data_loader theta stats num_train batch_size vf p).2.1.indices.length
          / (min batch_size ((num_examples_of theta num_train : ℤ)
              - num_training_examples_of vf
                  (num_examples_of theta num_train))).toNat := by
  have hb0 : (min batch_size ((num_examples_of theta num_train : ℤ)
      - num_training_examples_of vf (num_examples_of theta num_train))).toNat
        ≠ 0 := by
    omega
  refine ⟨rfl, fun c hc => ?_, ?_⟩
  · unfold Loader.batches at hc
    rw [data_loader_val_batch_size] at hc
    exact ⟨full_batches_batch_length order c hc,
      fun x hx => ho.mem_iff.mp (full_batches_subset _ order c hc x hx)⟩
  · unfold Loader.batches
    rw [data_loader_val_batch_size, full_batches_length hb0, ho.length_eq]

/-- Witness for C9 (amended) at a concrete call: 4 examples, 50/50
split, batch size 1. -/
theorem val_loader_batches_spec_witness :
    (([0, 1, 2, 3] : List ℕ).Perm (List.range (num_examples_of [1, 2, 3, 4] 4)) ∧
      (0 : ℤ) < 1 ∧
      0 ≤ num_training_examples_of (1 / 2) (num_examples_of [1, 2, 3, 4] 4) ∧
      num_training_examples_of (1 / 2) (num_examples_of [1, 2, 3, 4] 4)
        < (num_examples_of [1, 2, 3, 4] 4 : ℤ) ∧
      ([3, 2] : List ℕ).Perm
        (data_loader [1, 2, 3, 4] [1, 2, 3, 4] 4 1 (1 / 2)
          [0, 1, 2, 3]).2.1.indices) ∧
    ((data_loader [1, 2, 3, 4] [1, 2, 3, 4] 4 1 (1 / 2)
        [0, 1, 2, 3]).2.1.batch_size
      = min 1 ((num_examples_of [1, 2, 3, 4] 4 : ℤ)
          - num_training_examples_of (1 / 2) (num_examples_of [1, 2, 3, 4] 4)) ∧
    (∀ c ∈ (data_loader [1, 2, 3, 4] [1, 2, 3, 4] 4 1 (1 / 2)
        [0, 1, 2, 3]).2.1.batches [3, 2],
      c.length = (min 1 ((num_examples_of [1, 2, 3, 4] 4 : ℤ)
          - num_training_examples_of (1 / 2)
              (num_examples_of [1, 2, 3, 4] 4))).toNat ∧
      ∀ x ∈ c,
        x ∈ (data_loader [1, 2, 3, 4] [1, 2, 3, 4] 4 1 (1 / 2)
          [0, 1, 2, 3]).2.1.indices) ∧
    ((data_loader [1, 2, 3, 4] [1, 2, 3, 4] 4 1 (1 / 2)
        [0, 1, 2, 3]).2.1.batches [3, 2]).length
      = (data_loader [1, 2, 3, 4] [1, 2, 3, 4] 4 1 (1 / 2)
          [0, 1, 2, 3]).2.1.indices.length
        / (min 1 ((num_examples_of [1, 2, 3, 4] 4 : ℤ)
            - num_training_examples_of (1 / 2)
                (num_examples_of [1, 2, 3, 4] 4))).toNat) :=
  ⟨⟨by decide, by decide, by decide, by decide, by decide⟩,
   val_loader_batches_spec [1, 2, 3, 4] [1, 2, 3, 4] 4 1 (1 / 2)
     [0, 1, 2, 3] [3, 2] (by decide) (by decide) (by decide) (by decide)
     (by decide)⟩

/-- C4: with N=100 samples, `num_train=100`, `validation_fraction=0.1`,
`batch_size=10`, the split has 90 training indices and 10 validation
indices, and — whatever orders the samplers emit — the training iterator
yields exactly 9 batches per epoch and the validation iterator exactly
1 batch. -/
theorem data_loader_scenario_100 (p tro vao : List ℕ)
    (hp : p.Perm (List.range 100))
    (htr : tro.Perm ((data_loader theta100 theta100 100 10 (1 / 10)
        p).1.indices))
    (hva : vao.Perm ((data_loader theta100 theta100 100 10 (1 / 10)
        p).2.1.indices)) :
    (data_loader theta100 theta100 100 10 (1 / 10) p).1.indices.length = 90 ∧
    (data_loader theta100 theta100 100 10 (1 / 10) p).2.1.indices.length
        = 10 ∧
    ((data_loader theta100 theta100 100 10 (1 / 10) p).1.batches tro).length
        = 9 ∧
    ((data_loader theta100 theta100 100 10 (1 / 10) p).2.1.batches vao).length
        = 1 := by
  have hcut : slice_stop (num_examples_of theta100 100)
      (num_training_examples_of (1 / 10) (num_examples_of theta100 100))
        = 90 := by decide
  have hp_len : p.length = 100 := by rw [hp.length_eq, List.length_range]
  have h1 : (data_loader theta100 theta100 100 10 (1 / 10) p).1.indices.length
      = 90 := by
    rw [data_loader_train_indices, hcut, List.length_take, hp_len]
    decide
  have h2 : (data_loader theta100 theta100 100 10 (1 / 10)
      p).2.1.indices.length = 10 := by
    rw [data_loader_val_indices, hcut, List.length_drop, hp_len]
  refine ⟨h1, h2, ?_, ?_⟩
  · unfold Loader.batches
    rw [data_loader_train_batch_size, full_batches_length (by decide),
      htr.length_eq, h1]
    decide
  · unfold Loader.batches
    rw [data_loader_val_batch_size]
    have hbs : (min (10 : ℤ) ((num_examples_of theta100 100 : ℤ)
        - num_training_examples_of (1 / 10) (num_examples_of theta100 100)))
          = 10 := by decide
    rw [hbs, full_batches_length (by decide), hva.length_eq, h2]
    decide

/-- Witness for C4 with the identity permutation and in-order samplers. -/
theorem data_loader_scenario_100_witness :
    ((List.range 100).Perm (List.range 100) ∧
      ((data_loader theta100 theta100 100 10 (1 / 10)
          (List.range 100)).1.indices).Perm
        ((data_loader theta100 theta100 100 10 (1 / 10)
          (List.range 100)).1.indices) ∧
      ((data_loader theta100 theta100 100 10 (1 / 10)
          (List.range 100)).2.1.indices).Perm
        ((data_loader theta100 theta100 100 10 (1 / 10)
          (List.range 100)).2.1.indices)) ∧
    ((data_loader theta100 theta100 100 10 (1 / 10)
        (List.range 100)).1.indices.length = 90 ∧
      (data_loader theta100 theta100 100 10 (1 / 10)
        (List.range 100)).2.1.indices.length = 10 ∧
      ((data_loader theta100 theta100 100 10 (1 / 10)
          (List.range 100)).1.batches
        ((data_loader theta100 theta100 100 10 (1 / 10)
          (List.range 100)).1.indices)).length = 9 ∧
      ((data_loader theta100 theta100 100 10 (1 / 10)
          (List.range 100)).2.1.batches
        ((data_loader theta100 theta100 100 10 (1 / 10)
          (List.range 100)).2.1.indices)).length = 1) :=
  ⟨⟨List.Perm.refl _, List.Perm.refl _, List.Perm.refl _⟩,
   data_loader_scenario_100 (List.range 100) _ _ (List.Perm.refl _)
     (List.Perm.refl _) (List.Perm.refl _)⟩

/-- Counterexample for C9 as stated: the validation loader visits the
validation indices through a `SubsetRandomSampler`, i.e. in a fresh
random order each epoch — NOT "without shuffling in a fixed order".
Here `[2, 3]` and `[3, 2]` are both orders the sampler can emit for the
validation indices of the same call, and they yield different batch
sequences. -/
theorem val_loader_order_counterexample :
    ([2, 3] : List ℕ).Perm
      (data_loader [1, 2, 3, 4] [1, 2, 3, 4] 4 1 (1 / 2)
        [0, 1, 2, 3]).2.1.indices ∧
    ([3, 2] : List ℕ).Perm
      (data_loader [1, 2, 3, 4] [1, 2, 3, 4] 4 1 (1 / 2)
        [0, 1, 2, 3]).2.1.indices ∧
    (data_loader [1, 2, 3, 4] [1, 2, 3, 4] 4 1 (1 / 2)
        [0, 1, 2, 3]).2.1.batches [2, 3]
      ≠ (data_loader [1, 2, 3, 4] [1, 2, 3, 4] 4 1 (1 / 2)
          [0, 1, 2, 3]).2.1.batches [3, 2] := by
  decide

theorem foldl_add_fin (l : List ℚ) :
    ∀ a : ℚ, (l.map PVal.fin).foldl PVal.add (.fin a) = .fin (a + l.sum) := by
  induction l with
  | nil =>
    intro a
    simp
  | cons x xs ih =>
    intro a
    simp only [List.map_cons, List.foldl_cons, PVal.add, ih, List.sum_cons,
      PVal.fin.injEq]
    ring

/-- C6: at the end of every training pass, the reported training loss
equals the sum of that epoch's per-batch mean MSE losses divided by
`num_train - num_validation_examples`, where `num_train` is the argument
value — a biased normalization, not a true per-example mean. -/
theorem train_loss_biased_normalization (losses : List ℚ) (num_train : ℕ)
    (nv : ℤ) (h : (num_train : ℤ) ≠ nv) :
    train_pass_loss (losses.map PVal.fin) num_train nv
      = .ok (.fin (losses.sum / ((num_train : ℚ) - (nv : ℚ)))) := by
  have hd : (num_train : ℤ) - nv ≠ 0 := sub_ne_zero.mpr h
  rw [train_pass_loss, foldl_add_fin, PVal.div_int_ok _ hd]
  simp only [PVal.div_int_total, zero_add, Except.ok.injEq, PVal.fin.injEq]
  push_cast
  ring

/-- Witness for C6 at a concrete epoch: batch losses 1 and 2,
`num_train = 3`, one validation example. -/
theorem train_loss_biased_normalization_witness :
    ((3 : ℕ) : ℤ) ≠ (1 : ℤ) ∧
    train_pass_loss ([(1 : ℚ), 2].map PVal.fin) 3 1
      = .ok (.fin ([(1 : ℚ), 2].sum / ((3 : ℚ) - (1 : ℚ)))) :=
  ⟨by decide, train_loss_biased_normalization [1, 2] 3 1 (by decide)⟩

/-! ### Training-loop lemmas -/

theorem improve_update_epochs (v : PVal) (net_after : ℕ → σ)
    (s : LoopState σ) :
    (improve_update v net_after s).epochs = s.epochs + 1 := by
  unfold improve_update
  split <;> rfl

theorem epoch_step_ok {tl vl : ℕ → List PVal} {na : ℕ → σ} {nt : ℕ}
    {nv me sa : ℤ} {s s1 : LoopState σ} {c : Bool}
    (h : epoch_step tl vl na nt nv me sa s = .ok (s1, c)) :
    s1.epochs = s.epochs + 1 ∧
    (c = false → (s1.epochs : ℤ) ≤ me) ∧
    (c = true → s1.best_model_state_dict = some s1.net_state) := by
  unfold epoch_step at h
  split at h
  · exact absurd h (by simp)
  · split at h
    · exact absurd h (by simp)
    · next v hv =>
      split at h
      · next hcond =>
        split at h
        · exact absurd h (by simp)
        · next d hd =>
          simp only [Except.ok.injEq, Prod.mk.injEq] at h
          obtain ⟨h1, h2⟩ := h
          subst h1
          subst h2
          refine ⟨improve_update_epochs .., by simp, fun _ => ?_⟩
          simpa using hd
      · next hcond =>
        simp only [Except.ok.injEq, Prod.mk.injEq] at h
        obtain ⟨h1, h2⟩ := h
        subst h1
        subst h2
        push_neg at hcond
        refine ⟨improve_update_epochs .., fun _ => ?_, by simp⟩
        rw [improve_update_epochs]
        exact_mod_cast hcond.1

theorem run_loop_total {tl vl : ℕ → List PVal} {na : ℕ → σ} {nt : ℕ}
    {nv me sa : ℤ} :
    ∀ (fuel : ℕ) (s : LoopState σ), s.epochs ≤ me.toNat →
      me.toNat + 1 ≤ fuel + s.epochs →
      ∃ r, run_loop tl vl na nt nv me sa fuel s = some r ∧
        ∀ s1, r = .ok s1 → s1.epochs ≤ me.toNat + 1 := by
  intro fuel
  induction fuel with
  | zero =>
    intro s h1 h2
    omega
  | succ fuel ih =>
    intro s h1 h2
    cases hstep : epoch_step tl vl na nt nv me sa s with
    | error err =>
      exact ⟨.error err, by rw [run_loop, hstep], by simp⟩
    | ok p =>
      obtain ⟨s1, c⟩ := p
      obtain ⟨he, hcf, _⟩ := epoch_step_ok hstep
      cases c with
      | true =>
        refine ⟨.ok s1, by rw [run_loop, hstep], ?_⟩
        intro s2 hs2
        cases hs2
        omega
      | false =>
        have hle : (s1.epochs : ℤ) ≤ me := hcf rfl
        obtain ⟨r, hr, hb⟩ := ih s1 (by omega) (by omega)
        exact ⟨r, by rw [run_loop, hstep]; exact hr, hb⟩

/-- C2: for every input configuration, the `while not converged` loop of
`fit_regression_net` terminates after at most `max_epochs + 1` epochs:
running it with fuel `max_epochs.toNat + 1` from the initial state always
produces a result (the fuel is never exhausted, because the loop exits
as soon as the epoch counter exceeds `max_epochs`), and when the loop
exits normally its epoch counter is at most `max_epochs.toNat + 1`. -/
theorem fit_regression_net_terminates (tl vl : ℕ → List PVal)
    (na : ℕ → σ) (net0 : σ) (nt : ℕ) (nv me sa : ℤ) :
    fit_regression_net tl vl na net0 nt nv me sa ≠ none ∧
    ∃ r, run_loop tl vl na nt nv me sa (me.toNat + 1) (init_state net0)
        = some r ∧
      ∀ s1, r = .ok s1 → s1.epochs ≤ me.toNat + 1 := by
  obtain ⟨r, hr, hb⟩ := @run_loop_total σ tl vl na nt nv me sa
    (me.toNat + 1) (init_state net0) (by simp [init_state])
    (by simp [init_state])
  exact ⟨by simp [fit_regression_net, hr], r, hr, hb⟩

theorem PVal.div_int_ok_inv {x : PVal} {d : ℤ} {v : PVal}
    (h : PVal.div_int x d = .ok v) :
    d ≠ 0 ∧ v = PVal.div_int_total x d := by
  unfold PVal.div_int at h
  split at h
  · simp at h
  · next hd =>
    refine ⟨hd, ?_⟩
    cases x <;> simp_all [PVal.div_int_total]

/-- Evaluation of one epoch when both normalizations succeed. -/
theorem epoch_step_eval (tl vl : ℕ → List PVal) (na : ℕ → σ) (nt : ℕ)
    (nv me sa : ℤ) (s : LoopState σ) (hnv : nv ≠ 0)
    (hnt : (nt : ℤ) - nv ≠ 0) :
    epoch_step tl vl na nt nv me sa s =
      if ((s.epochs + 1 : ℕ) : ℤ) > me ∨
          ((improve_update (v_loss vl nv (s.epochs + 1)) na
              s).epochs_since_last_improvement : ℤ) > sa - 1 then
        match (improve_update (v_loss vl nv (s.epochs + 1)) na
            s).best_model_state_dict with
        | none => .error .load_state_dict_none
        | some d =>
          .ok ({ improve_update (v_loss vl nv (s.epochs + 1)) na s with
            net_state := d }, true)
      else .ok (improve_update (v_loss vl nv (s.epochs + 1)) na s, false) := by
  unfold epoch_step
  rw [train_pass_loss_ok _ _ hnt, val_pass_loss_ok vl hnv]

/-- The improvement branch of the check (source line 109, condition
true). -/
theorem improve_update_yes (v : PVal) (na : ℕ → σ) (s : LoopState σ)
    (h : PVal.plt v s.best_validation_log_prob = true) :
    improve_update v na s =
      { epochs := s.epochs + 1, best_validation_log_prob := v,
        epochs_since_last_improvement := 0,
        best_model_state_dict := some (na (s.epochs + 1)),
        net_state := na (s.epochs + 1) } := by
  unfold improve_update
  rw [h]
  simp

/-- The non-improvement branch of the check (source line 114, condition
false). -/
theorem improve_update_no (v : PVal) (na : ℕ → σ) (s : LoopState σ)
    (h : PVal.plt v s.best_validation_log_prob = false) :
    improve_update v na s =
      { epochs := s.epochs + 1,
        best_validation_log_prob := s.best_validation_log_prob,
        epochs_since_last_improvement := s.epochs_since_last_improvement + 1,
        best_model_state_dict := s.best_model_state_dict,
        net_state := na (s.epochs + 1) } := by
  unfold improve_update
  rw [h]
  simp

/-- The running-min invariant maintained by the improvement bookkeeping:
either no epoch so far compared strictly below the `1e10` sentinel and no
snapshot exists, or the snapshot is the network state after some epoch
`e` whose validation loss no epoch so far beats. -/
def BestInv (vl : ℕ → List PVal) (nv : ℤ) (na : ℕ → σ)
    (s : LoopState σ) : Prop :=
  (s.best_model_state_dict = none ∧
    s.best_validation_log_prob = .fin (10 ^ 10) ∧
    ∀ i, 1 ≤ i → i ≤ s.epochs →
      PVal.plt (v_loss vl nv i) (.fin (10 ^ 10)) = false) ∨
  (∃ e, 1 ≤ e ∧ e ≤ s.epochs ∧
    s.best_model_state_dict = some (na e) ∧
    s.best_validation_log_prob = v_loss vl nv e ∧
    ∀ i, 1 ≤ i → i ≤ s.epochs →
      PVal.plt (v_loss vl nv i) (v_loss vl nv e) = false)

theorem improve_update_inv {vl : ℕ → List PVal} {nv : ℤ} {na : ℕ → σ}
    {s : LoopState σ} (hinv : BestInv vl nv na s) :
    BestInv vl nv na (improve_update (v_loss vl nv (s.epochs + 1)) na s) := by
  cases himp : PVal.plt (v_loss vl nv (s.epochs + 1))
      s.best_validation_log_prob with
  | true =>
    rw [improve_update_yes _ _ _ himp]
    unfold BestInv
    dsimp only
    right
    refine ⟨s.epochs + 1, by omega, le_refl _, rfl, rfl, ?_⟩
    intro i h1 h2
    rcases Nat.lt_or_ge i (s.epochs + 1) with hlt | hge
    · by_contra hne
      have hi : PVal.plt (v_loss vl nv i) (v_loss vl nv (s.epochs + 1))
          = true := by
        revert hne
        cases PVal.plt (v_loss vl nv i) (v_loss vl nv (s.epochs + 1)) <;> simp
      rcases hinv with ⟨_, hb, hall⟩ | ⟨e, _, _, _, hb, hall⟩
      · have := PVal.plt_trans hi (hb ▸ himp)
        rw [hall i h1 (by omega)] at this
        exact Bool.false_ne_true this
      · have := PVal.plt_trans hi (hb ▸ himp)
        rw [hall i h1 (by omega)] at this
        exact Bool.false_ne_true this
    · have : i = s.epochs + 1 := by omega
      rw [this]
      exact PVal.plt_irrefl _
  | false =>
    rw [improve_update_no _ _ _ himp]
    unfold BestInv
    dsimp only
    rcases hinv with ⟨hd, hb, hall⟩ | ⟨e, he1, he2, hd, hb, hall⟩
    · left
      refine ⟨hd, hb, ?_⟩
      intro i h1 h2
      rcases Nat.lt_or_ge i (s.epochs + 1) with hlt | hge
      · exact hall i h1 (by omega)
      · have : i = s.epochs + 1 := by omega
        rw [this, ← hb]
        exact himp
    · right
      refine ⟨e, he1, by omega, hd, hb, ?_⟩
      intro i h1 h2
      rcases Nat.lt_or_ge i (s.epochs + 1) with hlt | hge
      · exact hall i h1 (by omega)
      · have : i = s.epochs + 1 := by omega
        rw [this, ← hb]
        exact himp

theorem epoch_step_inv {tl vl : ℕ → List PVal} {na : ℕ → σ} {nt : ℕ}
    {nv me sa : ℤ} {s s1 : LoopState σ} {c : Bool}
    (h : epoch_step tl vl na nt nv me sa s = .ok (s1, c))
    (hinv : BestInv vl nv na s) : BestInv vl nv na s1 := by
  unfold epoch_step at h
  split at h
  · exact absurd h (by simp)
  · split at h
    · exact absurd h (by simp)
    · next v hv =>
      obtain ⟨hnv, hveq⟩ := PVal.div_int_ok_inv hv
      have hv2 : v = v_loss vl nv (s.epochs + 1) := hveq
      subst hv2
      split at h
      · split at h
        · exact absurd h (by simp)
        · next d hd =>
          simp only [Except.ok.injEq, Prod.mk.injEq] at h
          obtain ⟨h1, _⟩ := h
          subst h1
          have hcore := @improve_update_inv σ vl nv na s hinv
          unfold BestInv at hcore ⊢
          simpa using hcore
      · simp only [Except.ok.injEq, Prod.mk.injEq] at h
        obtain ⟨h1, _⟩ := h
        subst h1
        exact improve_update_inv hinv

theorem run_loop_inv {tl vl : ℕ → List PVal} {na : ℕ → σ} {nt : ℕ}
    {nv me sa : ℤ} :
    ∀ (fuel : ℕ) (s s1 : LoopState σ),
      run_loop tl vl na nt nv me sa fuel s = some (.ok s1) →
      BestInv vl nv na s →
      BestInv vl nv na s1 ∧
        s1.best_model_state_dict = some s1.net_state := by
  intro fuel
  induction fuel with
  | zero =>
    intro s s1 h
    simp [run_loop] at h
  | succ fuel ih =>
    intro s s1 h hinv
    rw [run_loop] at h
    cases hstep : epoch_step tl vl na nt nv me sa s with
    | error err =>
      rw [hstep] at h
      simp at h
    | ok p =>
      obtain ⟨s2, c⟩ := p
      rw [hstep] at h
      cases c with
      | true =>
        simp only [Option.some.injEq, Except.ok.injEq] at h
        subst h
        exact ⟨epoch_step_inv hstep hinv, (epoch_step_ok hstep).2.2 rfl⟩
      | false =>
        exact ih s2 s1 h (epoch_step_inv hstep hinv)

/-- C1: every run of the `fit_regression_net` loop that terminates
normally returns the network holding exactly the parameter state
snapshotted at an epoch `e` whose validation loss no epoch observed
during training compares strictly below (the lowest observed, under the
IEEE `<` used by the improvement check). -/
theorem fit_regression_net_returns_best_snapshot
    (tl vl : ℕ → List PVal) (na : ℕ → σ) (net0 : σ) (nt : ℕ)
    (nv me sa : ℤ) (s1 : LoopState σ)
    (h : run_loop tl vl na nt nv me sa (me.toNat + 1) (init_state net0)
        = some (.ok s1)) :
    ∃ e, 1 ≤ e ∧ e ≤ s1.epochs ∧ s1.net_state = na e ∧
      fit_regression_net tl vl na net0 nt nv me sa = some (.ok (na e)) ∧
      ∀ i, 1 ≤ i → i ≤ s1.epochs →
        PVal.plt (v_loss vl nv i) (v_loss vl nv e) = false := by
  have hinv0 : BestInv vl nv na (init_state net0 : LoopState σ) := by
    left
    refine ⟨rfl, rfl, fun i h1 h2 => ?_⟩
    simp [init_state] at h2
    omega
  obtain ⟨hinv, hdict⟩ :=
    run_loop_inv (me.toNat + 1) (init_state net0) s1 h hinv0
  rcases hinv with ⟨hd, _, _⟩ | ⟨e, he1, he2, hd, _, hall⟩
  · rw [hd] at hdict
    exact absurd hdict (by simp)
  · rw [hd] at hdict
    have hnet : s1.net_state = na e := by
      injection hdict with h2
      exact h2.symm
    refine ⟨e, he1, he2, hnet, ?_, hall⟩
    unfold fit_regression_net
    rw [h, ← hnet]
    rfl

/-- Witness for C1: a concrete 2-epoch run (improvement in epoch 1,
patience exhausted in epoch 2) whose final network state is the epoch-1
snapshot. -/
theorem fit_regression_net_returns_best_snapshot_witness :
    ∃ e, 1 ≤ e ∧ e ≤ (⟨2, .fin 5, 1, some 1, 1⟩ : LoopState ℕ).epochs ∧
      (⟨2, .fin 5, 1, some 1, 1⟩ : LoopState ℕ).net_state = (fun k => k) e ∧
      fit_regression_net (fun _ => [.fin 1]) (fun _ => [.fin 5])
        (fun k => k) (99 : ℕ) 2 1 1 20 = some (.ok ((fun k => k) e)) ∧
      ∀ i, 1 ≤ i → i ≤ (⟨2, .fin 5, 1, some 1, 1⟩ : LoopState ℕ).epochs →
        PVal.plt (v_loss (fun _ => [.fin 5]) 1 i)
          (v_loss (fun _ => [.fin 5]) 1 e) = false :=
  fit_regression_net_returns_best_snapshot (fun _ => [.fin 1])
    (fun _ => [.fin 5]) (fun k => k) 99 2 1 1 20 ⟨2, .fin 5, 1, some 1, 1⟩
    (by rfl)

theorem run_loop_no_improvement {tl vl : ℕ → List PVal} {na : ℕ → σ}
    {nt : ℕ} {nv me sa : ℤ}
    (hnv : nv ≠ 0) (hnt : (nt : ℤ) - nv ≠ 0)
    (hall : ∀ k, PVal.plt (v_loss vl nv k) (.fin (10 ^ 10)) = false) :
    ∀ (fuel : ℕ) (s : LoopState σ),
      s.best_model_state_dict = none →
      s.best_validation_log_prob = .fin (10 ^ 10) →
      s.epochs ≤ me.toNat →
      me.toNat + 1 ≤ fuel + s.epochs →
      run_loop tl vl na nt nv me sa fuel s
        = some (.error .load_state_dict_none) := by
  intro fuel
  induction fuel with
  | zero =>
    intro s h1 h2 h3 h4
    omega
  | succ fuel ih =>
    intro s hdict hbest h3 h4
    have hplt : PVal.plt (v_loss vl nv (s.epochs + 1))
        s.best_validation_log_prob = false := by
      rw [hbest]
      exact hall _
    rw [run_loop, epoch_step_eval tl vl na nt nv me sa s hnv hnt,
      improve_update_no _ _ _ hplt]
    dsimp only
    rw [hdict]
    by_cases hcond : ((s.epochs + 1 : ℕ) : ℤ) > me ∨
        ((s.epochs_since_last_improvement + 1 : ℕ) : ℤ) > sa - 1
    · rw [if_pos hcond]
    · rw [if_neg hcond]
      push_neg at hcond
      dsimp only
      refine ih _ rfl hbest ?_ ?_
      · show s.epochs + 1 ≤ me.toNat
        have := hcond.1
        omega
      · show me.toNat + 1 ≤ fuel + (s.epochs + 1)
        omega

/-- C10: if in no epoch the validation loss compares strictly below the
initial sentinel `1e10` (e.g. every validation loss is NaN, or at least
`1e10`), `best_model_state_dict` is still `None` when a termination
condition fires, and the terminating branch's `load_state_dict(None)`
raises an error instead of returning a trained network. -/
theorem no_improvement_load_none_error (tl vl : ℕ → List PVal)
    (na : ℕ → σ) (net0 : σ) (nt : ℕ) (nv me sa : ℤ)
    (hnv : nv ≠ 0) (hnt : (nt : ℤ) - nv ≠ 0)
    (hall : ∀ k, PVal.plt (v_loss vl nv k) (.fin (10 ^ 10)) = false) :
    fit_regression_net tl vl na net0 nt nv me sa
      = some (.error .load_state_dict_none) := by
  unfold fit_regression_net
  rw [run_loop_no_improvement hnv hnt hall (me.toNat + 1) (init_state net0)
    rfl rfl (by simp [init_state]) (by simp [init_state])]
  rfl

/-- Witness for C10: constant NaN validation losses never improve on the
sentinel, and the run ends in the `load_state_dict(None)` error. -/
theorem no_improvement_load_none_error_witness :
    ((1 : ℤ) ≠ 0 ∧ ((2 : ℕ) : ℤ) - 1 ≠ 0 ∧
      ∀ k, PVal.plt (v_loss (fun _ => [PVal.nan]) 1 k) (.fin (10 ^ 10))
        = false) ∧
    fit_regression_net (fun _ => [.fin 1]) (fun _ => [PVal.nan])
        (fun k => k) (99 : ℕ) 2 1 1 20
      = some (.error .load_state_dict_none) :=
  ⟨⟨by decide, by decide, fun _ => rfl⟩,
   no_improvement_load_none_error _ _ _ 99 2 1 1 20 (by decide) (by decide)
     (fun _ => rfl)⟩

/-- C5 (amended): with `stop_after_epochs = 1` and a validation-loss
sequence whose single improvement happens at epoch 1 (strictly below the
sentinel) and that never compares below it again, the loop stops at the
end of epoch 2 — exactly 1 epoch (= `stop_after_epochs`) after the
improvement epoch, not 2: the patience check fires on the first
non-improving epoch. -/
theorem stop_one_epoch_after_single_improvement
    (tl vl : ℕ → List PVal) (na : ℕ → σ) (net0 : σ) (nt : ℕ)
    (nv me : ℤ) (hnv : nv ≠ 0) (hnt : (nt : ℤ) - nv ≠ 0) (hme : 1 ≤ me)
    (h1 : PVal.plt (v_loss vl nv 1) (.fin (10 ^ 10)) = true)
    (h2 : ∀ k, 2 ≤ k → PVal.plt (v_loss vl nv k) (v_loss vl nv 1) = false) :
    run_loop tl vl na nt nv me 1 (me.toNat + 1) (init_state net0)
      = some (.ok ⟨2, v_loss vl nv 1, 1, some (na 1), na 1⟩) := by
  have e1 : epoch_step tl vl na nt nv me 1 (init_state net0 : LoopState σ)
      = .ok (⟨1, v_loss vl nv 1, 0, some (na 1), na 1⟩, false) := by
    rw [epoch_step_eval tl vl na nt nv me 1 (init_state net0) hnv hnt]
    have hyes : PVal.plt
        (v_loss vl nv ((init_state net0 : LoopState σ).epochs + 1))
        (init_state net0 : LoopState σ).best_validation_log_prob = true := h1
    rw [improve_update_yes _ _ _ hyes]
    dsimp only [init_state]
    split
    · next hcond =>
      exfalso
      rcases hcond with hc | hc <;> omega
    · rfl
  have e2 : epoch_step tl vl na nt nv me 1
      (⟨1, v_loss vl nv 1, 0, some (na 1), na 1⟩ : LoopState σ)
        = .ok (⟨2, v_loss vl nv 1, 1, some (na 1), na 1⟩, true) := by
    rw [epoch_step_eval tl vl na nt nv me 1 _ hnv hnt]
    have hno : PVal.plt (v_loss vl nv
        ((⟨1, v_loss vl nv 1, 0, some (na 1), na 1⟩ : LoopState σ).epochs + 1))
        (⟨1, v_loss vl nv 1, 0, some (na 1), na 1⟩ :
          LoopState σ).best_validation_log_prob = false :=
      h2 2 (le_refl 2)
    rw [improve_update_no _ _ _ hno]
    dsimp only
    split
    · rfl
    · next hcond =>
      exfalso
      push_neg at hcond
      have := hcond.2
      omega
  obtain ⟨f, hf⟩ : ∃ f, me.toNat + 1 = f + 1 + 1 := ⟨me.toNat - 1, by omega⟩
  rw [hf, run_loop, e1]
  dsimp only
  rw [run_loop, e2]

/-- Witness for C5 (amended): losses 5, 6, 6, … — improvement at epoch 1
only; the run stops with `epochs = 2`. -/
theorem stop_one_epoch_after_single_improvement_witness :
    ((1 : ℤ) ≠ 0 ∧ ((2 : ℕ) : ℤ) - 1 ≠ 0 ∧ (1 : ℤ) ≤ 100 ∧
      PVal.plt (v_loss (fun k => if k = 1 then [.fin 5] else [.fin 6]) 1 1)
        (.fin (10 ^ 10)) = true) ∧
    run_loop (fun _ => [.fin 1])
        (fun k => if k = 1 then [.fin 5] else [.fin 6]) (fun k => k) 2 1 100 1
        ((100 : ℤ).toNat + 1) (init_state (0 : ℕ))
      = some (.ok ⟨2,
          v_loss (fun k => if k = 1 then [.fin 5] else [.fin 6]) 1 1,
          1, some 1, 1⟩) :=
  ⟨⟨by decide, by decide, by decide, by rfl⟩,
   stop_one_epoch_after_single_improvement _ _ (fun k => k) 0 2 1 100
     (by decide) (by decide) (by decide) (by rfl)
     (fun k hk => by
       have hk1 : k ≠ 1 := by omega
       simp only [v_loss, if_neg hk1]
       rfl)⟩

/-- Counterexample for C5 as stated: with `stop_after_epochs = 1` and
losses 5, 6, 6, … (single improvement at epoch 1, never again), the loop
stops after epoch 2 — 1 epoch after the improvement — whereas the claim
predicts it stops 2 epochs after it, i.e. after epoch 3. -/
theorem stop_after_single_improvement_counterexample :
    run_loop (fun _ => [.fin 1])
        (fun k => if k = 1 then [.fin 5] else [.fin 6]) (fun k => k) 2 1 100 1
        101 (init_state (0 : ℕ))
      = some (.ok ⟨2, .fin 5, 1, some 1, 1⟩) ∧ (2 : ℕ) ≠ 1 + 2 :=
  ⟨by rfl, by decide⟩

/-- C7 (amended): when the split yields a zero-length validation set,
the validation `DataLoader` is constructed with batch size
`min(batch_size, 0) ≤ 0`, so torch raises `ValueError` inside
`data_loader` (source lines 192–198) before the training loop ever
starts: no epoch runs, no validation loss — finite or not — is ever
produced or compared, and the division at the validation normalization
is unreachable. -/
theorem zero_validation_raises_value_error (theta stats : List ℚ)
    (num_train : ℕ) (batch_size : ℤ) (vf : ℚ) (p : List ℕ)
    (tl vl : ℕ → List PVal) (na : ℕ → σ) (net0 : σ) (me sa : ℤ)
    (h : (data_loader theta stats num_train batch_size vf p).2.2 = 0) :
    data_loader_checked theta stats num_train batch_size vf p
        = .error .value_error ∧
    fit_regression_net_full theta stats num_train batch_size vf p tl vl na
        net0 me sa = some (.error .value_error) := by
  have hnv : (num_examples_of theta num_train : ℤ)
      - num_training_examples_of vf (num_examples_of theta num_train)
        = 0 := by
    rw [← data_loader_num_val theta stats num_train batch_size vf p]
    exact h
  have hval : (data_loader theta stats num_train batch_size
      vf p).2.1.batch_size ≤ 0 := by
    rw [data_loader_val_batch_size, hnv]
    exact min_le_right _ _
  have hchecked : data_loader_checked theta stats num_train batch_size vf p
      = .error .value_error := by
    unfold data_loader_checked torch_data_loader_check
    by_cases htr : (data_loader theta stats num_train batch_size
        vf p).1.batch_size ≤ 0
    · rw [if_pos htr]
    · rw [if_neg htr, if_pos hval]
  refine ⟨hchecked, ?_⟩
  unfold fit_regression_net_full
  rw [hchecked]

/-- Witness for C7 (amended): 3 examples with `validation_fraction = 0`
give an empty validation set; construction fails before any epoch. -/
theorem zero_validation_raises_value_error_witness :
    (data_loader [1, 2, 3] [0, 0, 1] 3 2 0 [0, 1, 2]).2.2 = 0 ∧
    (data_loader_checked [1, 2, 3] [0, 0, 1] 3 2 0 [0, 1, 2]
        = .error .value_error ∧
      fit_regression_net_full [1, 2, 3] [0, 0, 1] 3 2 0 [0, 1, 2]
        (fun _ => [.fin 1]) (fun _ => ([] : List PVal)) (fun k => k)
        (0 : ℕ) 5 20 = some (.error .value_error)) :=
  ⟨by decide,
   zero_validation_raises_value_error [1, 2, 3] [0, 0, 1] 3 2 0 [0, 1, 2]
     (fun _ => [.fin 1]) (fun _ => ([] : List PVal)) (fun k => k) 0 5 20
     (by decide)⟩

/-- Counterexample for C7 as stated: on a concrete input with an empty
validation set the run never reaches the validation-pass division at
all — `DataLoader` construction raises `ValueError` (not
`ZeroDivisionError`) inside `data_loader`, before the first epoch — so
no non-finite validation loss is ever produced and there are no
subsequent epochs whose improvement branch could be skipped. -/
theorem zero_validation_construction_counterexample :
    fit_regression_net_full [1, 2, 3, 4] [0, 0, 1, 1] 4 10 0 [0, 1, 2, 3]
        (fun _ => [.fin 1]) (fun _ => ([] : List PVal)) (fun k => k)
        (0 : ℕ) 7 20 = some (.error .value_error) ∧
    PyErr.value_error ≠ PyErr.zero_division_error :=
  ⟨by rfl, by decide⟩

end SensitivityAnalysis
